import Mathlib

/-!
Verification development for the PDF2PNG repository (src/app.py, src/app1.py,
src/app2.py): three Streamlit apps that rasterize an uploaded PDF to PNG page
images and package them into a ZIP archive.

The shallow embedding below translates the reusable core of the Python source:

* `perform_conversion` — the cached conversion function of `src/app1.py` /
  `src/app2.py` (identical code in both files): try-convert, encode each page
  to PNG, write each page into a ZIP entry named `page_{i+1:03d}.png`, and on
  any exception return `(None, str(e))`.
* the `st.cache_data(max_entries=5)` wrapper — modelled as an explicit bounded
  memoization cache (`Cache`, `getOrRender`).
* the `src/app1.py` script body — modelled as a state machine over Streamlit's
  `st.session_state` (upload / DPI-change / Previous / Next events).
* the `src/app.py` startup line `DPI = int(os.getenv("OUTPUT_DPI", 300))` —
  modelled with an explicit Python `int()` parser.

The external collaborators (`pdf2image.convert_from_bytes` and PIL's PNG
encoder) are oracle parameters (`Renderer`); all theorems quantify over them.
-/

namespace PDF2PNG

/-- Raw byte strings (Python `bytes`), one natural number per byte. -/
abbrev Bytes := List Nat

/-- An abstract in-memory raster page (a PIL `Image` handle). -/
abbrev Image := Nat

/-- The external collaborators of the application, taken as oracles:
`convert_from_bytes` is `pdf2image.convert_from_bytes` (it either returns the
ordered list of rendered pages or raises, modelled as `Except`); `save_png` is
`image.save(buf, format="PNG")` followed by `buf.getvalue()` (in-memory PNG
encoding of an already-rendered page, modelled as total). -/
structure Renderer where
  convert_from_bytes : Bytes → Nat → Except String (List Image)
  save_png : Image → Bytes

/-- Python's `f"{n:03d}"`: decimal digits of `n`, left-padded with zeros to a
minimum width of 3. -/
def pad3 (n : Nat) : String :=
  let s := toString n
  if s.length < 3 then String.mk (List.replicate (3 - s.length) '0') ++ s else s

/-- Entry name `f"page_{n:03d}.png"` used by the ZIP loop of `src/app1.py` and
`src/app2.py` (`n` is the 1-based page ordinal). -/
def pageEntryName (n : Nat) : String :=
  "page_" ++ pad3 n ++ ".png"

/-- Entry name `f"{pdf_filename}_page_{n:03d}.png"` used by `src/app.py`. -/
def appPageEntryName (base : String) (n : Nat) : String :=
  base ++ "_page_" ++ pad3 n ++ ".png"

/-- A ZIP archive, modelled by its ordered entry list (name, stored bytes).
`zipfile.ZipFile.writestr` appends one entry per call and extraction returns
the written bytes unchanged (DEFLATE is lossless), so the archive byte stream
is determined by this entry list. -/
abbrev ZipEntries := List (String × Bytes)

/-- The value returned by `perform_conversion` in `src/app1.py`/`src/app2.py`:
the Python function returns the pair `(image_bytes_list, zip_bytes)` on
success and `(None, str(e))` after catching an exception; callers distinguish
the two shapes with `isinstance(image_bytes_list, list)`. -/
inductive ConvReturn where
  | success (image_bytes_list : List Bytes) (zip_data : ZipEntries)
  | failure (diagnostic : String)
deriving DecidableEq

/-- The ZIP-building loop
`for i, image in enumerate(images): ... zf.writestr(f"page_{i+1:03d}.png", img_bytes)`,
with `ordinal` the running value of `i + 1`. -/
def zipPages (R : Renderer) (ordinal : Nat) : List Image → ZipEntries
  | [] => []
  | img :: rest => (pageEntryName ordinal, R.save_png img) :: zipPages R (ordinal + 1) rest

/-- All ZIP entries produced for a rendered page list (the loop started at
ordinal 1, i.e. `enumerate` index 0). -/
def zipEntriesOf (R : Renderer) (images : List Image) : ZipEntries :=
  zipPages R 1 images

/-- The `try:` block of `perform_conversion`: call the renderer (the one
statement that can raise), then build `image_bytes_list` and the ZIP entries.
An exception raised by `convert_from_bytes` aborts the block. -/
def conversion_body (R : Renderer) (pdf_bytes : Bytes) (dpi : Nat) :
    Except String (List Bytes × ZipEntries) :=
  match R.convert_from_bytes pdf_bytes dpi with
  | .ok images => .ok (images.map R.save_png, zipEntriesOf R images)
  | .error e => .error e

/-- `perform_conversion(pdf_bytes, dpi)` from `src/app1.py`/`src/app2.py`
(body only, without the `st.cache_data` wrapper): the `except Exception as e:`
clause converts any raised error into the returned pair `(None, str(e))`. -/
def perform_conversion (R : Renderer) (pdf_bytes : Bytes) (dpi : Nat) : ConvReturn :=
  match conversion_body R pdf_bytes dpi with
  | .ok (l, z) => .success l z
  | .error e => .failure e

/-! ### The `st.cache_data(max_entries=5)` wrapper

`st.cache_data` memoizes every value the wrapped function *returns*, keyed on
the function's arguments `(pdf_bytes, dpi)`; only a raised exception is left
uncached.  Since `perform_conversion` catches all exceptions and returns
`(None, str(e))`, failure values are stored exactly like successes.  When the
entry count exceeds `max_entries`, the oldest-inserted entry is evicted (the
eviction order follows the specification's stated contract for the bounded
cache, as the cache implementation itself lives in the framework, not in this
repository). -/

/-- A cache key: the wrapped function's argument tuple `(pdf_bytes, dpi)`. -/
abbrev CacheKey := Bytes × Nat

/-- The memoization cache of `st.cache_data`, entries listed oldest first. -/
structure Cache where
  entries : List (CacheKey × ConvReturn)
deriving DecidableEq

/-- The empty cache (process start). -/
def Cache.empty : Cache := ⟨[]⟩

/-- The `max_entries=5` argument of the `st.cache_data` decorator. -/
def max_entries : Nat := 5

/-- Exact-key lookup in the cache. -/
def cacheLookup (c : Cache) (k : CacheKey) : Option ConvReturn :=
  (c.entries.find? (fun e => decide (e.1 = k))).map Prod.snd

/-- One call to the cached `perform_conversion`: on a hit return the stored
value without running the body; on a miss run the body, store its return
value (success or failure alike), and evict oldest-first beyond
`max_entries`.  The `Bool` component records whether the body (and hence the
renderer) was invoked by this call. -/
def getOrRender (R : Renderer) (c : Cache) (pdf_bytes : Bytes) (dpi : Nat) :
    ConvReturn × Cache × Bool :=
  match cacheLookup c (pdf_bytes, dpi) with
  | some r => (r, c, false)
  | none =>
    let r := perform_conversion R pdf_bytes dpi
    let es := c.entries ++ [((pdf_bytes, dpi), r)]
    let es' := if max_entries < es.length then es.drop (es.length - max_entries) else es
    (r, ⟨es'⟩, true)

/-- The archive component of a conversion return value (`zip_data` when the
call succeeded, nothing on failure). -/
def archive_bytes : ConvReturn → Option ZipEntries
  | .success _ z => some z
  | .failure _ => none

/-! ### Basic facts about the conversion body -/

theorem zipPages_length (R : Renderer) (imgs : List Image) :
    ∀ o, (zipPages R o imgs).length = imgs.length := by
  induction imgs with
  | nil => intro o; rfl
  | cons a rest ih => intro o; simp [zipPages, ih]

theorem zipPages_get? (R : Renderer) (imgs : List Image) :
    ∀ o i, (zipPages R o imgs).get? i =
      (imgs.get? i).map (fun img => (pageEntryName (o + i), R.save_png img)) := by
  induction imgs with
  | nil => intro o i; simp [zipPages]
  | cons a rest ih =>
    intro o i
    cases i with
    | zero => simp [zipPages]
    | succ j =>
      simp only [zipPages, List.get?]
      rw [ih (o + 1) j]
      have h : o + 1 + j = o + (j + 1) := by omega
      rw [h]

/-- Inversion: a successful `perform_conversion` return value comes from a
successful renderer call, with the page list and ZIP entries built from the
rendered pages. -/
theorem perform_conversion_success_inv (R : Renderer) (pdf_bytes : Bytes) (dpi : Nat)
    (l : List Bytes) (z : ZipEntries)
    (h : perform_conversion R pdf_bytes dpi = ConvReturn.success l z) :
    ∃ images, R.convert_from_bytes pdf_bytes dpi = Except.ok images ∧
      l = images.map R.save_png ∧ z = zipEntriesOf R images := by
  unfold perform_conversion conversion_body at h
  cases hc : R.convert_from_bytes pdf_bytes dpi with
  | ok images =>
    rw [hc] at h
    simp only [ConvReturn.success.injEq] at h
    exact ⟨images, rfl, h.1.symm, h.2.symm⟩
  | error e => rw [hc] at h; exact absurd h (by simp)

/-- C2: for every well-formed PDF input (one the renderer successfully
rasterizes to `N` pages) and positive dpi, `perform_conversion` returns the
complete ordered list of all `N` page images (the PNG encoding of each source
page, in document order, the page at 0-based position `i` carrying ordinal
`i + 1`); moreover every conversion return value is either such a complete
success or a failure record, never a prefix or subset of pages. -/
theorem render_returns_all_pages (R : Renderer) (pdf_bytes : Bytes) (dpi : Nat)
    (images : List Image) (N : Nat)
    (hok : R.convert_from_bytes pdf_bytes dpi = Except.ok images)
    (hN : images.length = N) (hdpi : 0 < dpi) :
    perform_conversion R pdf_bytes dpi
        = ConvReturn.success (images.map R.save_png) (zipEntriesOf R images) ∧
    (images.map R.save_png).length = N ∧
    (∀ i img, images.get? i = some img →
        (images.map R.save_png).get? i = some (R.save_png img)) ∧
    (∀ p d, (∃ l z, perform_conversion R p d = ConvReturn.success l z) ∨
            (∃ e, perform_conversion R p d = ConvReturn.failure e)) := by
  refine ⟨?_, ?_, ?_, ?_⟩
  · unfold perform_conversion conversion_body
    rw [hok]
  · simp [hN]
  · intro i img hi
    rw [List.get?_map, hi]
    rfl
  · intro p d
    unfold perform_conversion conversion_body
    cases hc : R.convert_from_bytes p d with
    | ok imgs => exact Or.inl ⟨_, _, rfl⟩
    | error e => exact Or.inr ⟨e, rfl⟩

/-- C2 witness: a concrete renderer mapping any input to three pages. -/
def testR : Renderer :=
  ⟨fun _ _ => Except.ok [10, 20, 30], fun img => [img, img + 1]⟩

/-- A concrete PDF byte string used by the witnesses. -/
def testPdf : Bytes := [37, 80, 68, 70]

theorem render_returns_all_pages_witness :
    testR.convert_from_bytes testPdf 300 = Except.ok [10, 20, 30] ∧
    ([10, 20, 30] : List Image).length = 3 ∧ 0 < 300 ∧
    perform_conversion testR testPdf 300
      = ConvReturn.success ([10, 20, 30].map testR.save_png) (zipEntriesOf testR [10, 20, 30]) :=
  ⟨rfl, rfl, by decide,
    (render_returns_all_pages testR testPdf 300 [10, 20, 30] 3 rfl rfl (by decide)).1⟩

/-- C3: for every successful conversion the produced ZIP archive has exactly
one entry per page image, the entry at 0-based position `i` is named
`page_{i+1:03d}.png` (the 1-based ordinal zero-padded to width 3), and its
stored bytes are exactly the corresponding page's PNG bytes (round-trip). -/
theorem archive_structure (R : Renderer) (pdf_bytes : Bytes) (dpi : Nat)
    (l : List Bytes) (z : ZipEntries)
    (h : perform_conversion R pdf_bytes dpi = ConvReturn.success l z) :
    z.length = l.length ∧
    (∀ i b, l.get? i = some b → z.get? i = some (pageEntryName (i + 1), b)) ∧
    (∀ i entry, z.get? i = some entry →
        entry.1 = pageEntryName (i + 1) ∧ l.get? i = some entry.2) := by
  obtain ⟨images, hok, hl, hz⟩ := perform_conversion_success_inv R pdf_bytes dpi l z h
  subst hl; subst hz
  refine ⟨by simp [zipEntriesOf, zipPages_length], ?_, ?_⟩
  · intro i b hb
    rw [List.get?_map] at hb
    cases hi : images.get? i with
    | none => rw [hi] at hb; exact absurd hb (by simp)
    | some img =>
      rw [hi] at hb
      simp only [Option.map_some', Option.some.injEq] at hb
      rw [zipEntriesOf, zipPages_get?, hi]
      simp only [Option.map_some', Option.some.injEq]
      rw [Nat.add_comm 1 i, hb]
  · intro i entry he
    rw [zipEntriesOf, zipPages_get?] at he
    cases hi : images.get? i with
    | none => rw [hi] at he; exact absurd he (by simp)
    | some img =>
      rw [hi] at he
      simp only [Option.map_some', Option.some.injEq] at he
      constructor
      · rw [← he]; rw [Nat.add_comm 1 i]
      · rw [List.get?_map, hi, ← he]
        rfl

theorem archive_structure_witness :
    perform_conversion testR testPdf 300
      = ConvReturn.success ([10, 20, 30].map testR.save_png) (zipEntriesOf testR [10, 20, 30]) ∧
    (zipEntriesOf testR [10, 20, 30]).length = ([10, 20, 30].map testR.save_png).length :=
  ⟨by decide,
    (archive_structure testR testPdf 300 _ _ (by decide)).1⟩

/-- C6: for every input and every renderer behavior (malformed bytes, missing
engine, any raised error), `perform_conversion` either succeeds completely or
returns a failure value carrying exactly the diagnostic of the raised error;
the try/except boundary converts every raised error into a returned failure,
so no fault escapes to the caller. -/
theorem all_errors_caught (R : Renderer) (pdf_bytes : Bytes) (dpi : Nat) :
    (∃ l z, perform_conversion R pdf_bytes dpi = ConvReturn.success l z) ∨
    (∃ e, R.convert_from_bytes pdf_bytes dpi = Except.error e ∧
          perform_conversion R pdf_bytes dpi = ConvReturn.failure e) := by
  unfold perform_conversion conversion_body
  cases hc : R.convert_from_bytes pdf_bytes dpi with
  | ok images => exact Or.inl ⟨_, _, rfl⟩
  | error e => exact Or.inr ⟨e, rfl, rfl⟩

/-! ### Cache lemmas -/

theorem find?_append_of_none {α : Type} (p : α → Bool) (l₁ l₂ : List α)
    (h : l₁.find? p = none) : (l₁ ++ l₂).find? p = l₂.find? p := by
  induction l₁ with
  | nil => rfl
  | cons a rest ih =>
    rw [List.find?] at h
    cases hp : p a with
    | true => rw [hp] at h; exact absurd h (by simp)
    | false =>
      rw [hp] at h
      rw [List.cons_append, List.find?, hp]
      exact ih h

theorem find?_drop_of_none {α : Type} (p : α → Bool) (l : List α) (n : Nat)
    (h : l.find? p = none) : (l.drop n).find? p = none := by
  rw [List.find?_eq_none] at h ⊢
  intro x hx
  exact h x (List.mem_of_mem_drop hx)

/-- After any `getOrRender` call, the requested key is present in the
resulting cache and maps to the value that was returned. -/
theorem getOrRender_lookup_self (R : Renderer) (c : Cache) (pdf_bytes : Bytes) (dpi : Nat) :
    cacheLookup (getOrRender R c pdf_bytes dpi).2.1 (pdf_bytes, dpi)
      = some (getOrRender R c pdf_bytes dpi).1 := by
  unfold getOrRender
  cases h : cacheLookup c (pdf_bytes, dpi) with
  | some r => simpa using h
  | none =>
    simp only
    have hfind : c.entries.find? (fun e => decide (e.1 = (pdf_bytes, dpi))) = none := by
      unfold cacheLookup at h
      exact Option.map_eq_none'.mp h
    unfold cacheLookup
    simp only [Cache.mk.injEq]
    set k : CacheKey := (pdf_bytes, dpi) with hk
    set r := perform_conversion R pdf_bytes dpi with hr
    set es := c.entries ++ [(k, r)] with hes
    have hsingle : ([(k, r)].find? (fun e => decide (e.1 = k))) = some (k, r) := by
      simp [List.find?]
    have heslen : es.length = c.entries.length + 1 := by
      rw [hes]; simp
    by_cases hlen : max_entries < es.length
    · rw [if_pos hlen]
      have hle : es.length - max_entries ≤ c.entries.length := by
        rw [heslen, show max_entries = 5 from rfl]; omega
      rw [hes] at hle ⊢
      rw [List.drop_append_of_le_length hle]
      rw [find?_append_of_none _ _ _ (find?_drop_of_none _ _ _ hfind), hsingle]
      rfl
    · rw [if_neg hlen]
      rw [hes, find?_append_of_none _ _ _ hfind, hsingle]
      rfl

/-- The second of two identical back-to-back calls is a pure cache hit:
returns the first call's value, leaves the cache untouched, and does not run
the conversion body. -/
theorem getOrRender_second (R : Renderer) (c : Cache) (pdf_bytes : Bytes) (dpi : Nat) :
    getOrRender R (getOrRender R c pdf_bytes dpi).2.1 pdf_bytes dpi
      = ((getOrRender R c pdf_bytes dpi).1, (getOrRender R c pdf_bytes dpi).2.1, false) := by
  have h := getOrRender_lookup_self R c pdf_bytes dpi
  conv_lhs => rw [getOrRender]
  rw [h]

/-- C4: calling the cached conversion twice with an identical
`(pdf_bytes, dpi)` request and the cache as left by the first call invokes
the conversion body (and hence the renderer) at most once: the second call
is a cache hit that returns the stored result, leaves the cache unchanged
(no new archive is built or stored), and does not invoke the body. -/
theorem second_call_is_cache_hit (R : Renderer) (c : Cache) (pdf_bytes : Bytes) (dpi : Nat) :
    (getOrRender R (getOrRender R c pdf_bytes dpi).2.1 pdf_bytes dpi).1
        = (getOrRender R c pdf_bytes dpi).1 ∧
    (getOrRender R (getOrRender R c pdf_bytes dpi).2.1 pdf_bytes dpi).2.1
        = (getOrRender R c pdf_bytes dpi).2.1 ∧
    (getOrRender R (getOrRender R c pdf_bytes dpi).2.1 pdf_bytes dpi).2.2 = false ∧
    ((if (getOrRender R c pdf_bytes dpi).2.2 then 1 else 0)
      + (if (getOrRender R (getOrRender R c pdf_bytes dpi).2.1 pdf_bytes dpi).2.2
          then 1 else 0) : Nat) ≤ 1 := by
  have h := getOrRender_second R c pdf_bytes dpi
  rw [h]
  refine ⟨rfl, rfl, rfl, ?_⟩
  cases (getOrRender R c pdf_bytes dpi).2.2 <;> simp

/-- C5: two calls with an identical request against the same cache state
return results with bit-identical archive bytes (the second call returns the
very value stored by the first, so the whole ZIP byte stream is reproduced
exactly). -/
theorem repeated_call_archive_identical (R : Renderer) (c : Cache)
    (pdf_bytes : Bytes) (dpi : Nat) :
    (getOrRender R (getOrRender R c pdf_bytes dpi).2.1 pdf_bytes dpi).1
        = (getOrRender R c pdf_bytes dpi).1 ∧
    archive_bytes (getOrRender R (getOrRender R c pdf_bytes dpi).2.1 pdf_bytes dpi).1
        = archive_bytes (getOrRender R c pdf_bytes dpi).1 := by
  have h := getOrRender_second R c pdf_bytes dpi
  rw [h]
  exact ⟨rfl, rfl⟩

/-- A renderer whose engine always raises (e.g. Poppler missing). -/
def failR : Renderer :=
  ⟨fun _ _ => Except.error "Unable to get page count. Is poppler installed and in PATH?",
   fun img => [img]⟩

/-- C1 counterexample: with an always-failing renderer and an empty cache,
the first call fails — and the failure IS stored in the cache under the
request key, so the identical retry is a cache hit that does NOT re-invoke
the renderer (its invocation flag is `false`), contradicting the claim that
a failed request leaves the cache unpopulated and is re-attempted. -/
theorem cached_failure_counterexample :
    (getOrRender failR Cache.empty testPdf 300).1
        = ConvReturn.failure "Unable to get page count. Is poppler installed and in PATH?" ∧
    cacheLookup (getOrRender failR Cache.empty testPdf 300).2.1 (testPdf, 300)
        = some (ConvReturn.failure
            "Unable to get page count. Is poppler installed and in PATH?") ∧
    (getOrRender failR (getOrRender failR Cache.empty testPdf 300).2.1 testPdf 300).2.2
        = false := by
  exact ⟨rfl, rfl, rfl⟩

/-- C1 (amended): for every request on which the conversion fails and whose
key is not yet cached, the call returns the failure result AND stores it in
the cache under the request key, so a later call with the identical request
is a cache hit returning the stored failure without re-attempting the
conversion (the renderer is not invoked again). -/
theorem failure_result_is_cached (R : Renderer) (c : Cache) (pdf_bytes : Bytes) (dpi : Nat)
    (e : String)
    (hmiss : cacheLookup c (pdf_bytes, dpi) = none)
    (hfail : perform_conversion R pdf_bytes dpi = ConvReturn.failure e) :
    (getOrRender R c pdf_bytes dpi).1 = ConvReturn.failure e ∧
    cacheLookup (getOrRender R c pdf_bytes dpi).2.1 (pdf_bytes, dpi)
        = some (ConvReturn.failure e) ∧
    (getOrRender R (getOrRender R c pdf_bytes dpi).2.1 pdf_bytes dpi).2.2 = false := by
  have hres : (getOrRender R c pdf_bytes dpi).1 = ConvReturn.failure e := by
    unfold getOrRender
    rw [hmiss]
    simpa using hfail
  refine ⟨hres, ?_, ?_⟩
  · rw [getOrRender_lookup_self, hres]
  · have h := getOrRender_second R c pdf_bytes dpi
    rw [h]

theorem failure_result_is_cached_witness :
    cacheLookup Cache.empty (testPdf, 300) = none ∧
    perform_conversion failR testPdf 300
        = ConvReturn.failure "Unable to get page count. Is poppler installed and in PATH?" ∧
    (getOrRender failR Cache.empty testPdf 300).1
        = ConvReturn.failure "Unable to get page count. Is poppler installed and in PATH?" :=
  ⟨rfl, rfl, (failure_result_is_cached failR Cache.empty testPdf 300 _ rfl rfl).1⟩

/-! ### Cache capacity and eviction -/

/-- The miss branch of `getOrRender` in isolation: append the new entry and
evict from the front (oldest first) down to `max_entries`. -/
def capInsert (c : Cache) (k : CacheKey) (r : ConvReturn) : Cache :=
  let es := c.entries ++ [(k, r)]
  ⟨if max_entries < es.length then es.drop (es.length - max_entries) else es⟩

theorem getOrRender_miss (R : Renderer) (c : Cache) (pdf_bytes : Bytes) (dpi : Nat)
    (h : cacheLookup c (pdf_bytes, dpi) = none) :
    getOrRender R c pdf_bytes dpi
      = (perform_conversion R pdf_bytes dpi,
         capInsert c (pdf_bytes, dpi) (perform_conversion R pdf_bytes dpi), true) := by
  unfold getOrRender capInsert
  rw [h]

theorem capInsert_keys (c : Cache) (k : CacheKey) (r : ConvReturn) :
    (capInsert c k r).entries.map Prod.fst
        = (c.entries.map Prod.fst ++ [k]).drop (c.entries.length + 1 - max_entries) ∧
    (capInsert c k r).entries.length = min (c.entries.length + 1) max_entries := by
  unfold capInsert
  simp only
  have hlen : (c.entries ++ [(k, r)]).length = c.entries.length + 1 := by simp
  by_cases h : max_entries < (c.entries ++ [(k, r)]).length
  · rw [if_pos h]
    constructor
    · rw [List.map_drop, hlen]
      congr 1
      simp
    · rw [List.length_drop, hlen]
      rw [hlen] at h
      omega
  · rw [if_neg h]
    rw [hlen] at h
    constructor
    · have hz : c.entries.length + 1 - max_entries = 0 := by omega
      rw [hz, List.drop_zero]
      simp
    · rw [hlen]
      omega

/-- Inserting a sequence of requests through the cached wrapper, in order. -/
def insertAll (R : Renderer) (c : Cache) (reqs : List CacheKey) : Cache :=
  reqs.foldl (fun acc k => (getOrRender R acc k.1 k.2).2.1) c

theorem cacheLookup_none_of_not_mem (c : Cache) (k : CacheKey)
    (h : k ∉ c.entries.map Prod.fst) : cacheLookup c k = none := by
  unfold cacheLookup
  rw [Option.map_eq_none']
  rw [List.find?_eq_none]
  intro x hx hdec
  exact h (List.mem_map.mpr ⟨x, hx, of_decide_eq_true hdec⟩)

theorem insertAll_spec (R : Renderer) (reqs : List CacheKey) :
    ∀ c : Cache, reqs.Nodup → (∀ k ∈ reqs, k ∉ c.entries.map Prod.fst) →
      c.entries.length ≤ max_entries →
      (insertAll R c reqs).entries.map Prod.fst
          = (c.entries.map Prod.fst ++ reqs).drop (c.entries.length + reqs.length - max_entries) ∧
      (insertAll R c reqs).entries.length = min (c.entries.length + reqs.length) max_entries := by
  induction reqs with
  | nil =>
    intro c _ _ hle
    have hz : c.entries.length + 0 - max_entries = 0 := by omega
    refine ⟨?_, ?_⟩
    · rw [List.length_nil, hz, List.append_nil, List.drop_zero]
      rfl
    · rw [List.length_nil]
      unfold insertAll
      simp only [List.foldl_nil]
      omega
  | cons k rest ih =>
    intro c hnd hmem hle
    have hk : k ∉ c.entries.map Prod.fst := hmem k (List.mem_cons_self k rest)
    have hmiss : cacheLookup c k = none := cacheLookup_none_of_not_mem c k hk
    have hstep : insertAll R c (k :: rest)
        = insertAll R (capInsert c k (perform_conversion R k.1 k.2)) rest := by
      unfold insertAll
      rw [List.foldl_cons]
      congr 1
      have := getOrRender_miss R c k.1 k.2 hmiss
      rw [show ((k.1, k.2) : CacheKey) = k from rfl] at this
      rw [this]
    set c₁ := capInsert c k (perform_conversion R k.1 k.2) with hc₁
    obtain ⟨hkeys₁, hlen₁⟩ := capInsert_keys c k (perform_conversion R k.1 k.2)
    rw [← hc₁] at hkeys₁ hlen₁
    have hnd' : rest.Nodup := (List.nodup_cons.mp hnd).2
    have hknr : k ∉ rest := (List.nodup_cons.mp hnd).1
    have hmem' : ∀ k' ∈ rest, k' ∉ c₁.entries.map Prod.fst := by
      intro k' hk' hin
      rw [hkeys₁] at hin
      have hin' := List.mem_of_mem_drop hin
      rcases List.mem_append.mp hin' with hA | hB
      · exact hmem k' (List.mem_cons_of_mem k hk') hA
      · rw [List.mem_singleton] at hB
        exact hknr (hB ▸ hk')
    have hle₁ : c₁.entries.length ≤ max_entries := by
      rw [hlen₁]; omega
    obtain ⟨ihkeys, ihlen⟩ := ih c₁ hnd' hmem' hle₁
    have hme : max_entries = 5 := rfl
    have hkeyfull :
        c₁.entries.map Prod.fst ++ rest
          = ((c.entries.map Prod.fst ++ [k]) ++ rest).drop (c.entries.length + 1 - max_entries) := by
      rw [hkeys₁]
      have hd : c.entries.length + 1 - max_entries ≤ (c.entries.map Prod.fst ++ [k]).length := by
        simp only [List.length_append, List.length_map, List.length_cons, List.length_nil]
        omega
      rw [List.drop_append_of_le_length hd]
    refine ⟨?_, ?_⟩
    · rw [hstep, ihkeys, hkeyfull, List.drop_drop]
      have harr : c.entries.length + 1 - max_entries
            + (c₁.entries.length + rest.length - max_entries)
          = c.entries.length + (k :: rest).length - max_entries := by
        rw [hlen₁]
        simp only [List.length_cons]
        rw [hme] at *
        omega
      rw [harr]
      congr 1
      rw [List.append_assoc, List.singleton_append]
    · rw [hstep, ihlen, hlen₁]
      simp only [List.length_cons]
      rw [hme] at *
      omega

/-- C7: the cache never holds more than `max_entries = 5` entries (each call
of the cached wrapper preserves the bound), and after inserting any number
of distinct requests greater than the capacity into an empty cache exactly 5
entries are retained — the last 5 requests in insertion order — with the
earliest-inserted request the one evicted (it is no longer present). -/
theorem cache_capacity_and_eviction (R : Renderer) :
    (∀ (c : Cache) (pdf_bytes : Bytes) (dpi : Nat), c.entries.length ≤ max_entries →
        ((getOrRender R c pdf_bytes dpi).2.1).entries.length ≤ max_entries) ∧
    (∀ reqs : List CacheKey, reqs.Nodup → max_entries < reqs.length →
        (insertAll R Cache.empty reqs).entries.map Prod.fst
            = reqs.drop (reqs.length - max_entries) ∧
        (insertAll R Cache.empty reqs).entries.length = max_entries ∧
        ∀ k, reqs.head? = some k →
          k ∉ (insertAll R Cache.empty reqs).entries.map Prod.fst) := by
  constructor
  · intro c pdf_bytes dpi hle
    unfold getOrRender
    cases h : cacheLookup c (pdf_bytes, dpi) with
    | some r => exact hle
    | none =>
      simp only
      have hlen : (c.entries ++ [((pdf_bytes, dpi), perform_conversion R pdf_bytes dpi)]).length
          = c.entries.length + 1 := by simp
      by_cases hbig : max_entries
          < (c.entries ++ [((pdf_bytes, dpi), perform_conversion R pdf_bytes dpi)]).length
      · rw [if_pos hbig, List.length_drop, hlen]
        rw [hlen] at hbig
        omega
      · rw [if_neg hbig, hlen]
        rw [hlen] at hbig
        omega
  · intro reqs hnd hlong
    have hempty : ∀ k ∈ reqs, k ∉ (Cache.empty).entries.map Prod.fst := by
      intro k _ hin
      exact absurd hin (by simp [Cache.empty])
    have hle : (Cache.empty).entries.length ≤ max_entries := by
      simp [Cache.empty]
    obtain ⟨hkeys, hlen⟩ := insertAll_spec R reqs Cache.empty hnd hempty hle
    have hkeys' : (insertAll R Cache.empty reqs).entries.map Prod.fst
        = reqs.drop (reqs.length - max_entries) := by
      rw [hkeys]
      simp [Cache.empty]
    refine ⟨hkeys', ?_, ?_⟩
    · rw [hlen]
      simp only [Cache.empty, List.length_nil, Nat.zero_add]
      omega
    · intro k hhead hin
      rw [hkeys'] at hin
      cases reqs with
      | nil => exact absurd hhead (by simp)
      | cons a rest =>
        have hak : a = k := by
          simpa using hhead
        subst hak
        have hd : (a :: rest).length - max_entries = rest.length + 1 - max_entries := by
          simp
        rw [hd] at hin
        have hdpos : 1 ≤ rest.length + 1 - max_entries := by
          simp only [List.length_cons] at hlong
          omega
        have : (a :: rest).drop (rest.length + 1 - max_entries)
            = rest.drop (rest.length + 1 - max_entries - 1) := by
          cases hE : rest.length + 1 - max_entries with
          | zero => omega
          | succ m =>
            simp [List.drop_succ_cons]
        rw [this] at hin
        exact (List.nodup_cons.mp hnd).1 (List.mem_of_mem_drop hin)

/-- Six pairwise-distinct requests, used to witness the eviction theorem. -/
def sixReqs : List CacheKey :=
  [([1], 300), ([2], 300), ([3], 300), ([4], 150), ([5], 600), ([6], 300)]

theorem cache_capacity_and_eviction_witness :
    sixReqs.Nodup ∧ max_entries < sixReqs.length ∧
    (insertAll testR Cache.empty sixReqs).entries.map Prod.fst = sixReqs.drop 1 :=
  ⟨by decide, by decide,
    ((cache_capacity_and_eviction testR).2 sixReqs (by decide) (by decide)).1⟩

/-! ### The `src/app1.py` script as a state machine

One Streamlit rerun executes the whole script top to bottom.  `st.session_state`
is a dictionary whose keys may be absent, modelled with `Option` fields.  A
user interaction (uploading/removing a file, changing the DPI selectbox,
clicking Previous/Next) triggers one rerun; the two widgets carry `on_change`
callbacks that run before the script body and set `current_page_index` to 0. -/

/-- `os.path.splitext(name)[0]`: everything before the last dot, where the
leading dots of a dotfile do not start an extension. -/
def splitext_base (s : String) : String :=
  let cs := s.toList
  let lead := cs.takeWhile (fun c => c = '.')
  let rest := cs.drop lead.length
  if rest.contains '.' then
    String.mk (lead ++ ((rest.reverse.dropWhile (fun c => c ≠ '.')).drop 1).reverse)
  else s

/-- The `st.session_state` keys used by `src/app1.py`; `none` = key absent.
`image_bytes_list` stores either the Python list of page PNGs
(`some (some l)`) or the stored `None` of a failed conversion (`some none`);
`zip_data` stores either the ZIP (`Sum.inl`) or the error string
(`Sum.inr`). -/
structure S1State where
  current_page_index : Option Nat
  last_file_id : Option Nat
  last_dpi : Option Nat
  image_bytes_list : Option (Option (List Bytes))
  zip_data : Option (Sum ZipEntries String)
  pdf_filename : Option String
  total_pages : Option Nat
deriving DecidableEq

/-- A fresh session: every key absent. -/
def S1State.init : S1State := ⟨none, none, none, none, none, none, none⟩

/-- `st.session_state.clear()`: every key removed. -/
def S1State.cleared : S1State := S1State.init

/-- A file sitting in the upload widget: Streamlit assigns each upload a
fresh `file_id`; `name` is the original filename, `content` its bytes. -/
structure UploadedFile where
  file_id : Nat
  name : String
  content : Bytes
deriving DecidableEq

/-- A full app1 configuration: session state, the shared `st.cache_data`
cache, and the current widget values (uploaded file and DPI selection). -/
structure Config where
  state : S1State
  cache : Cache
  uploaded : Option UploadedFile
  dpi : Nat
deriving DecidableEq

/-- Session start: empty state, empty cache, no file, default DPI 300. -/
def Config.init : Config := ⟨S1State.init, Cache.empty, none, 300⟩

/-- The user interactions that trigger a rerun of the script. -/
inductive Ev where
  | rerun
  | upload (f : UploadedFile)
  | removeFile
  | setDpi (d : Nat)
  | clickPrev
  | clickNext
deriving DecidableEq

/-- Widget updates and `on_change` callbacks, run before the script body:
both the file uploader and the DPI selectbox reset `current_page_index`
to 0 via `st.session_state.update(current_page_index=0)`. -/
def widget_phase (c : Config) (e : Ev) : Config :=
  match e with
  | .upload f =>
      { c with uploaded := some f,
               state := { c.state with current_page_index := some 0 } }
  | .removeFile =>
      { c with uploaded := none,
               state := { c.state with current_page_index := some 0 } }
  | .setDpi d =>
      { c with dpi := d,
               state := { c.state with current_page_index := some 0 } }
  | _ => c

/-- The guard
`"last_file_id" not in st.session_state or st.session_state.last_file_id != file_id or st.session_state.last_dpi != dpi`. -/
def needsConversion (s : S1State) (fid : Nat) (dpi : Nat) : Bool :=
  decide (s.last_file_id = none) || decide (s.last_file_id ≠ some fid)
    || decide (s.last_dpi ≠ some dpi)

/-- `if "current_page_index" not in st.session_state: st.session_state.current_page_index = 0`. -/
def init_index (s : S1State) : S1State :=
  match s.current_page_index with
  | none => { s with current_page_index := some 0 }
  | some _ => s

/-- Storing the result of `perform_conversion` into session state.  On
success all bookkeeping keys are written and the index is reset to 0; on
failure the keys are first written (`image_bytes_list = None`,
`zip_data = str(e)`, `total_pages = 0`) and then `st.session_state.clear()`
wipes the whole state, so the net effect is the cleared state. -/
def storeResult (s : S1State) (r : ConvReturn) (fid dpi : Nat) (base : String) : S1State :=
  match r with
  | .success l z =>
      { s with image_bytes_list := some (some l),
               zip_data := some (Sum.inl z),
               last_file_id := some fid,
               last_dpi := some dpi,
               pdf_filename := some base,
               total_pages := some l.length,
               current_page_index := some 0 }
  | .failure _ => S1State.cleared

/-- The conversion block: when the (file id, dpi) pair differs from the last
converted one, call the cached `perform_conversion` and store the result. -/
def conversion_phase (R : Renderer) (c : Config) (f : UploadedFile) : Config :=
  if needsConversion c.state f.file_id c.dpi then
    let gr := getOrRender R c.cache f.content c.dpi
    { c with state := storeResult c.state gr.1 f.file_id c.dpi (splitext_base f.name),
             cache := gr.2.1 }
  else c

/-- The Previous/Next button block: `st.button(..., disabled=(current_index == 0))`
cannot be clicked while disabled, so a Previous click decrements only when
`i ≠ 0` and a Next click increments only when `i ≠ total_pages - 1`; Previous
is processed first (its `st.rerun()` aborts the rest of the run). -/
def nav_update (s : S1State) (i t : Nat) (prevClick nextClick : Bool) : S1State :=
  if prevClick && !(i == 0) then { s with current_page_index := some (i - 1) }
  else if nextClick && !(i == t - 1) then { s with current_page_index := some (i + 1) }
  else s

/-- The output of one rerun: the new configuration, and the page displayed by
`st.image` (0-based index, the list access `image_bytes_list[current_index]`
as an optional lookup, and `total_pages`), if the display block ran. -/
structure RunOut where
  config : Config
  displayed : Option (Nat × Option Bytes × Nat)
deriving DecidableEq

/-- The display block, guarded by
`"image_bytes_list" in st.session_state and isinstance(..., list) and st.session_state.total_pages > 0`:
show page `current_page_index` and process the navigation buttons. -/
def display_phase (c : Config) (prevClick nextClick : Bool) : RunOut :=
  match c.state.image_bytes_list, c.state.total_pages with
  | some (some l), some t =>
      if 0 < t then
        let i := c.state.current_page_index.getD 0
        ⟨{ c with state := nav_update c.state i t prevClick nextClick },
          some (i, l.get? i, t)⟩
      else ⟨c, none⟩
  | _, _ => ⟨c, none⟩

/-- The `else:` branch when no file is present:
`if "last_file_id" in st.session_state: st.session_state.clear(); st.session_state.current_page_index = 0`. -/
def no_file_phase (c : Config) : Config :=
  if c.state.last_file_id.isSome then
    { c with state := { S1State.cleared with current_page_index := some 0 } }
  else c

/-- One top-to-bottom run of the `src/app1.py` script body (after widget
callbacks): initialize the page index key, then either the upload branch
(conversion guard, then display and navigation) or the no-file branch. -/
def app1_body (R : Renderer) (c : Config) (prevClick nextClick : Bool) : RunOut :=
  let c := { c with state := init_index c.state }
  match c.uploaded with
  | none => ⟨no_file_phase c, none⟩
  | some f => display_phase (conversion_phase R c f) prevClick nextClick

/-- One full interaction step: widget/callback phase, then the script body;
the Previous/Next click flags are true exactly for the matching events. -/
def app1_step (R : Renderer) (c : Config) (e : Ev) : RunOut :=
  app1_body R (widget_phase c e)
    (match e with | .clickPrev => true | _ => false)
    (match e with | .clickNext => true | _ => false)

/-- The configurations reachable from a fresh session by user interactions. -/
inductive Reachable (R : Renderer) : Config → Prop where
  | init : Reachable R Config.init
  | step (c : Config) (e : Ev) : Reachable R c → Reachable R (app1_step R c e).config

/-! ### Page-index invariants of the app1 machine -/

theorem init_index_last_file_id (s : S1State) :
    (init_index s).last_file_id = s.last_file_id := by
  unfold init_index
  cases s.current_page_index <;> rfl

theorem init_index_last_dpi (s : S1State) :
    (init_index s).last_dpi = s.last_dpi := by
  unfold init_index
  cases s.current_page_index <;> rfl

/-- Computation rule for the display block when it shows a page. -/
theorem display_phase_eq_pos (c : Config) (p n : Bool) (l : List Bytes) (t : Nat)
    (hl : c.state.image_bytes_list = some (some l)) (ht : c.state.total_pages = some t)
    (htpos : 0 < t) :
    display_phase c p n
      = ⟨{ c with state := nav_update c.state (c.state.current_page_index.getD 0) t p n },
         some (c.state.current_page_index.getD 0,
               l.get? (c.state.current_page_index.getD 0), t)⟩ := by
  unfold display_phase
  rw [hl, ht]
  simp [htpos]

/-- Computation rule for the display block when its guard fails. -/
theorem display_phase_eq_skip (c : Config) (p n : Bool)
    (hskip : c.state.image_bytes_list = none
      ∨ c.state.image_bytes_list = some none
      ∨ c.state.total_pages = none
      ∨ ∃ t, c.state.total_pages = some t ∧ ¬ 0 < t) :
    display_phase c p n = ⟨c, none⟩ := by
  unfold display_phase
  cases hl : c.state.image_bytes_list with
  | none => rfl
  | some o =>
    cases o with
    | none => rfl
    | some l =>
      cases ht : c.state.total_pages with
      | none => rfl
      | some t' =>
        rcases hskip with h | h | h | ⟨t'', ht'', htz⟩
        · rw [hl] at h; exact absurd h (by simp)
        · rw [hl] at h; exact absurd h (by simp)
        · rw [ht] at h; exact absurd h (by simp)
        · rw [ht] at ht''
          have e : t'' = t' := by simpa using ht''.symm
          subst e
          simp [htz]

/-- In the display block, a page with index 0 is shown whenever the state's
`current_page_index` key holds 0. -/
theorem display_phase_of_index_zero (c : Config) (p n : Bool)
    (hidx : c.state.current_page_index = some 0) :
    ∀ i b t, (display_phase c p n).displayed = some (i, b, t) → i = 0 := by
  intro i b t h
  cases hl : c.state.image_bytes_list with
  | none =>
    rw [display_phase_eq_skip c p n (Or.inl hl)] at h
    exact absurd h (by simp)
  | some o =>
    cases o with
    | none =>
      rw [display_phase_eq_skip c p n (Or.inr (Or.inl hl))] at h
      exact absurd h (by simp)
    | some l =>
      cases ht : c.state.total_pages with
      | none =>
        rw [display_phase_eq_skip c p n (Or.inr (Or.inr (Or.inl ht)))] at h
        exact absurd h (by simp)
      | some t' =>
        by_cases htpos : 0 < t'
        · rw [display_phase_eq_pos c p n l t' hl ht htpos] at h
          simp only [hidx, Option.getD_some, Option.some.injEq, Prod.mk.injEq] at h
          exact h.1.symm
        · rw [display_phase_eq_skip c p n (Or.inr (Or.inr (Or.inr ⟨t', ht, htpos⟩)))] at h
          exact absurd h (by simp)

/-- C8: in every script run in which the `(file id, dpi)` pair differs from
the stored `(last_file_id, last_dpi)` pair — a new file was uploaded or a
different resolution was selected — the conversion guard fires and resets
`current_page_index` to 0 (0-based index of ordinal 1) before the display
block runs, so any page displayed in that run is page 0. -/
theorem pair_change_resets_page_index (R : Renderer) (c : Config)
    (prevClick nextClick : Bool) (f : UploadedFile)
    (hup : c.uploaded = some f)
    (hchange : needsConversion c.state f.file_id c.dpi = true) :
    ∀ i b t, (app1_body R c prevClick nextClick).displayed = some (i, b, t) → i = 0 := by
  intro i b t h
  have hneed : needsConversion (init_index c.state) f.file_id c.dpi = true := by
    unfold needsConversion at hchange ⊢
    rw [init_index_last_file_id, init_index_last_dpi]
    exact hchange
  unfold app1_body at h
  simp only [hup] at h
  unfold conversion_phase at h
  simp only [hneed, if_true] at h
  cases hr : (getOrRender R c.cache f.content c.dpi).1 with
  | success l z =>
    rw [hr] at h
    refine display_phase_of_index_zero _ prevClick nextClick ?_ i b t h
    simp [storeResult]
  | failure e =>
    rw [hr] at h
    unfold storeResult display_phase at h
    exact absurd h (by simp [S1State.cleared, S1State.init])

/-- The session-state invariant maintained by `src/app1.py`: whenever a page
list is stored, `total_pages` records its length and `current_page_index`
holds an in-range index (or the list is empty). -/
def S1Inv (s : S1State) : Prop :=
  ∀ l t, s.image_bytes_list = some (some l) → s.total_pages = some t →
    t = l.length ∧ ∃ i, s.current_page_index = some i ∧ (t = 0 ∨ i < t)

theorem S1Inv_init : S1Inv S1State.init := by
  intro l t hl _
  exact absurd hl (by simp [S1State.init])

theorem set_index_zero_inv (s : S1State) (h : S1Inv s) :
    S1Inv { s with current_page_index := some 0 } := by
  intro l t hl ht
  obtain ⟨hteq, _⟩ := h l t hl ht
  exact ⟨hteq, 0, rfl, by omega⟩

theorem init_index_inv (s : S1State) (h : S1Inv s) : S1Inv (init_index s) := by
  unfold init_index
  cases hc : s.current_page_index with
  | none => exact set_index_zero_inv s h
  | some j => exact h

theorem widget_phase_inv (c : Config) (e : Ev) (h : S1Inv c.state) :
    S1Inv (widget_phase c e).state := by
  cases e with
  | upload f => exact set_index_zero_inv c.state h
  | removeFile => exact set_index_zero_inv c.state h
  | setDpi d => exact set_index_zero_inv c.state h
  | rerun => exact h
  | clickPrev => exact h
  | clickNext => exact h

theorem storeResult_inv (s : S1State) (r : ConvReturn) (fid dpi : Nat) (base : String) :
    S1Inv (storeResult s r fid dpi base) := by
  cases r with
  | success l z =>
    intro l' t' hl' ht'
    simp only [storeResult] at hl' ht'
    have h1 : l = l' := by simpa using hl'
    have h2 : l.length = t' := by simpa using ht'
    subst h1
    exact ⟨h2.symm, 0, rfl, by omega⟩
  | failure e =>
    intro l' t' hl' _
    exact absurd hl' (by simp [storeResult, S1State.cleared, S1State.init])

theorem conversion_phase_inv (R : Renderer) (c : Config) (f : UploadedFile)
    (h : S1Inv c.state) : S1Inv (conversion_phase R c f).state := by
  unfold conversion_phase
  by_cases hg : needsConversion c.state f.file_id c.dpi
  · simp only [hg, if_true]
    exact storeResult_inv _ _ _ _ _
  · simp only [hg, if_false]
    exact h

theorem no_file_phase_inv (c : Config) (h : S1Inv c.state) :
    S1Inv (no_file_phase c).state := by
  unfold no_file_phase
  by_cases hg : c.state.last_file_id.isSome
  · simp only [hg, if_true]
    intro l t hl _
    exact absurd hl (by simp [S1State.cleared, S1State.init])
  · simp only [hg, if_false]
    exact h

theorem nav_update_inv (s : S1State) (l : List Bytes) (t i₀ : Nat) (p n : Bool)
    (hl : s.image_bytes_list = some (some l)) (ht : s.total_pages = some t)
    (hteq : t = l.length) (hidx : s.current_page_index = some i₀) (hi : i₀ < t) :
    S1Inv (nav_update s i₀ t p n) := by
  have base : ∀ j : Nat, (t = 0 ∨ j < t) →
      S1Inv { s with current_page_index := some j } := by
    intro j hj l' t' hl' ht'
    have e1 : l' = l := by
      have hx : s.image_bytes_list = some (some l') := hl'
      rw [hl] at hx
      simpa using hx.symm
    have e2 : t' = t := by
      have hx : s.total_pages = some t' := ht'
      rw [ht] at hx
      simpa using hx.symm
    subst e1; subst e2
    exact ⟨hteq, j, rfl, hj⟩
  unfold nav_update
  split_ifs with h1 h2
  · exact base (i₀ - 1) (Or.inr (by omega))
  · simp only [Bool.and_eq_true, Bool.not_eq_true', beq_eq_false_iff_ne] at h2
    have hne : i₀ ≠ t - 1 := h2.2
    exact base (i₀ + 1) (Or.inr (by omega))
  · intro l' t' hl' ht'
    have e1 : l' = l := by
      have hx : s.image_bytes_list = some (some l') := hl'
      rw [hl] at hx
      simpa using hx.symm
    have e2 : t' = t := by
      have hx : s.total_pages = some t' := ht'
      rw [ht] at hx
      simpa using hx.symm
    subst e1; subst e2
    exact ⟨hteq, i₀, hidx, Or.inr hi⟩

theorem display_phase_spec (c : Config) (p n : Bool) (h : S1Inv c.state) :
    S1Inv (display_phase c p n).config.state ∧
    ∀ i b t, (display_phase c p n).displayed = some (i, b, t) →
      0 < t ∧ i < t ∧ ∃ bytes, b = some bytes := by
  cases hl : c.state.image_bytes_list with
  | none =>
    rw [display_phase_eq_skip c p n (Or.inl hl)]
    exact ⟨h, by intro i b t hcon; exact absurd hcon (by simp)⟩
  | some o =>
    cases o with
    | none =>
      rw [display_phase_eq_skip c p n (Or.inr (Or.inl hl))]
      exact ⟨h, by intro i b t hcon; exact absurd hcon (by simp)⟩
    | some l =>
      cases ht : c.state.total_pages with
      | none =>
        rw [display_phase_eq_skip c p n (Or.inr (Or.inr (Or.inl ht)))]
        exact ⟨h, by intro i b t hcon; exact absurd hcon (by simp)⟩
      | some t' =>
        by_cases htpos : 0 < t'
        · rw [display_phase_eq_pos c p n l t' hl ht htpos]
          obtain ⟨hteq, i₀, hidx, hcase⟩ := h l t' hl ht
          have hi : i₀ < t' := by
            cases hcase with
            | inl h0 => omega
            | inr hlt => exact hlt
          constructor
          · simp only [hidx, Option.getD_some]
            exact nav_update_inv c.state l t' i₀ p n hl ht hteq hidx hi
          · intro i b t hd
            simp only [hidx, Option.getD_some, Option.some.injEq, Prod.mk.injEq] at hd
            obtain ⟨hi', hb, ht''⟩ := hd
            subst hi'; subst hb; subst ht''
            refine ⟨htpos, hi, ?_⟩
            have hlen : i₀ < l.length := by omega
            exact ⟨l.get ⟨i₀, hlen⟩, List.get?_eq_get hlen⟩
        · rw [display_phase_eq_skip c p n (Or.inr (Or.inr (Or.inr ⟨t', ht, htpos⟩)))]
          exact ⟨h, by intro i b t hcon; exact absurd hcon (by simp)⟩

theorem app1_body_spec (R : Renderer) (c : Config) (p n : Bool) (h : S1Inv c.state) :
    S1Inv (app1_body R c p n).config.state ∧
    ∀ i b t, (app1_body R c p n).displayed = some (i, b, t) →
      0 < t ∧ i < t ∧ ∃ bytes, b = some bytes := by
  unfold app1_body
  have h1 : S1Inv (init_index c.state) := init_index_inv c.state h
  cases hu : c.uploaded with
  | none =>
    simp only
    refine ⟨?_, by intro i b t hcon; exact absurd hcon (by simp)⟩
    exact no_file_phase_inv _ h1
  | some f =>
    simp only
    exact display_phase_spec _ p n (conversion_phase_inv R _ f h1)

theorem app1_step_spec (R : Renderer) (c : Config) (e : Ev) (h : S1Inv c.state) :
    S1Inv (app1_step R c e).config.state ∧
    ∀ i b t, (app1_step R c e).displayed = some (i, b, t) →
      0 < t ∧ i < t ∧ ∃ bytes, b = some bytes := by
  unfold app1_step
  exact app1_body_spec R (widget_phase c e) _ _ (widget_phase_inv c e h)

/-- Every reachable configuration satisfies the session-state invariant. -/
theorem reachable_inv (R : Renderer) (c : Config) (h : Reachable R c) :
    S1Inv c.state := by
  induction h with
  | init => exact S1Inv_init
  | step c e _ ih => exact (app1_step_spec R c e ih).1

/-- C9: from any reachable app1 configuration, whenever a run displays a page
(`total_pages > 0`), the 0-based `current_page_index` used at the display
site is in bounds — `0 ≤ i ≤ total_pages - 1` — so the list access
`image_bytes_list[current_index]` always succeeds (the optional lookup
returns an actual byte string); Previous is a no-op at index 0, Next at
index `total_pages - 1`, and the index is reset to 0 by every conversion. -/
theorem display_access_in_bounds (R : Renderer) (c : Config) (e : Ev)
    (hr : Reachable R c) :
    ∀ i b t, (app1_step R c e).displayed = some (i, b, t) →
      0 < t ∧ i < t ∧ ∃ bytes, b = some bytes :=
  (app1_step_spec R c e (reachable_inv R c hr)).2

/-- The concrete uploaded file used by the app1 witnesses. -/
def testFile : UploadedFile := ⟨1, "doc.pdf", testPdf⟩

theorem display_access_in_bounds_witness :
    0 < 3 ∧ (0 : Nat) < 3 ∧ ∃ bytes, (some ([10, 11] : Bytes)) = some bytes :=
  display_access_in_bounds testR
    (app1_step testR Config.init (Ev.upload testFile)).config Ev.rerun
    (Reachable.step Config.init (Ev.upload testFile) Reachable.init)
    0 (some [10, 11]) 3 (by decide)

/-- The concrete pre-change configuration used by the C8 witness. -/
def cfg8 : Config := ⟨S1State.init, Cache.empty, some testFile, 300⟩

theorem pair_change_resets_page_index_witness :
    cfg8.uploaded = some testFile ∧
    needsConversion cfg8.state testFile.file_id cfg8.dpi = true ∧
    (0 : Nat) = 0 :=
  ⟨rfl, by decide,
    pair_change_resets_page_index testR cfg8 false false testFile rfl (by decide)
      0 (some [10, 11]) 3 (by decide)⟩

/-! ### The `src/app.py` startup configuration read

`src/app.py` runs `DPI = int(os.getenv("OUTPUT_DPI", 300))` at module level,
outside any `try` block (the script's only `try` wraps the later conversion).
`os.getenv` returns the environment string when the variable is set and the
default `300` (an `int`, which `int()` passes through) when unset. -/

/-- Digit-run parsing of Python `int(str)`: a nonempty run of ASCII digits in
which single underscores may appear between digits (no leading, trailing or
doubled underscore).  The running pair is (value so far, last char was a
digit). -/
def pyDigits (cs : List Char) : Option Nat :=
  match cs.foldl
      (fun acc c =>
        match acc with
        | none => none
        | some (v, lastDigit) =>
          if c.isDigit then some (10 * v + (c.toNat - 48), true)
          else if c = '_' then
            if lastDigit then some (v, false) else none
          else none)
      (some (0, false)) with
  | some (v, true) => some v
  | _ => none

/-- Python `int(s)` for a string argument: strip surrounding whitespace, read
an optional sign, then a digit run; any other shape raises `ValueError`
(modelled as `none`). -/
def python_int_of_string (s : String) : Option Int :=
  let cs := ((s.toList.dropWhile Char.isWhitespace).reverse.dropWhile
      Char.isWhitespace).reverse
  match cs with
  | '+' :: rest => (pyDigits rest).map (fun v => (v : Int))
  | '-' :: rest => (pyDigits rest).map (fun v => -(v : Int))
  | rest => (pyDigits rest).map (fun v => (v : Int))

/-- The module-level line `DPI = int(os.getenv("OUTPUT_DPI", 300))` of
`src/app.py`: `env` is the value of the `OUTPUT_DPI` environment variable
(`none` when unset).  The statement runs before any file is processed and is
not guarded by any exception handler, so a `ValueError` raised by `int()`
propagates out of the module (modelled as `Except.error`). -/
def app_py_read_dpi (env : Option String) : Except String Int :=
  match env with
  | none => Except.ok 300
  | some s =>
    match python_int_of_string s with
    | some v => Except.ok v
    | none =>
      Except.error ("ValueError: invalid literal for int() with base 10: " ++ s)

/-- C10: the startup DPI read of `src/app.py` is unguarded: for every value
of `OUTPUT_DPI` that is not a valid Python integer literal, the startup read
raises an uncaught `ValueError` (it produces an error, never any `ok` value,
in particular not the default), while the documented default of 300 applies
only when the variable is unset. -/
theorem unparsable_output_dpi_raises (s : String)
    (h : python_int_of_string s = none) :
    app_py_read_dpi (some s)
        = Except.error ("ValueError: invalid literal for int() with base 10: " ++ s) ∧
    (∀ v, app_py_read_dpi (some s) ≠ Except.ok v) ∧
    app_py_read_dpi none = Except.ok 300 := by
  refine ⟨?_, ?_, rfl⟩
  · simp only [app_py_read_dpi, h]
  · intro v hcon
    simp only [app_py_read_dpi, h] at hcon
    exact absurd hcon (by simp)

theorem unparsable_output_dpi_raises_witness :
    python_int_of_string "abc" = none ∧
    app_py_read_dpi (some "abc")
        = Except.error ("ValueError: invalid literal for int() with base 10: " ++ "abc") :=
  ⟨by decide, (unparsable_output_dpi_raises "abc" (by decide)).1⟩

end PDF2PNG
